import Mathlib

/-!
# slacktonic: Slack request verification middleware

A shallow embedding of `verifier.go`, `middleware.go` and `context.go`, together with the
library calls they make (`slack.NewSecretsVerifier`, `SecretsVerifier.Write/Ensure`,
`slack.SlashCommandParse`, `http.Request.ParseForm`, `hex`, `strconv`, `crypto/hmac`,
`crypto/sha256`, `crypto/subtle`, `time`, and the parts of `gin.Context` that the middleware
touches).

Conventions
* a Go `string` and a Go `[]byte` are both a list of bytes (`Bytes`);
* a pointer to a mutable value is modelled by passing the value in and returning the new one;
* the wall clock is an explicit argument `now`, in nanoseconds since the Unix epoch;
* a request body is the bytes its reader delivers and the error it ends with, if any;
* what `mime.ParseMediaType` returns on the `Content-Type` header is part of the request
  (`Request.MediaType`) instead of being computed;
* logger calls have no effect on the request, the context or the response and are left out.
-/

namespace Slacktonic

/-! ## Bytes and Go strings -/

abbrev Byte := Fin 256
abbrev Bytes := List Byte

/-- The bytes of an ASCII literal. -/
def ascii (s : String) : Bytes := s.toList.map (fun c => Fin.ofNat c.toNat)

/-- Go `strings.HasPrefix`. -/
def HasPrefix : Bytes → Bytes → Bool
  | _, [] => true
  | [], _ :: _ => false
  | c :: s, p :: ps => c == p && HasPrefix s ps

/-- Go `strings.TrimPrefix`. -/
def TrimPrefix (s pre : Bytes) : Bytes :=
  if HasPrefix s pre then s.drop pre.length else s

/-! ## Errors -/

/-- A Go `error` value, as far as this package builds and inspects them. -/
inductive GoError where
  /-- A package-level or library error value, identified by its name. -/
  | value (name : String)
  /-- Result of `fmt.Errorf(msg + ": %w", cause)`: wraps `cause`. -/
  | context (msg : String) (cause : GoError)
  /-- Result of `fmt.Errorf("%w: %v", cause, detail)`: wraps `cause` only, `detail` is printed. -/
  | annotate (cause : GoError) (detail : GoError)
  deriving DecidableEq, Repr

deriving instance DecidableEq for Except

/-- Go `errors.Unwrap`. -/
def GoError.Unwrap : GoError → Option GoError
  | .value _ => none
  | .context _ c => some c
  | .annotate c _ => some c

/-- Go `errors.Is`: `target` is found somewhere on the unwrap chain of `err`. -/
def errorsIs : GoError → GoError → Bool
  | .value n, target => decide (GoError.value n = target)
  | .context m c, target => decide (GoError.context m c = target) || errorsIs c target
  | .annotate c d, target => decide (GoError.annotate c d = target) || errorsIs c target

/-- Modelled from the spec: the sentinel `ErrUnauthorized` of this package, declared in a file
outside the given sources; the spec calls it the single `Unauthorized` classification. -/
def ErrUnauthorized : GoError := .value "slacktonic.ErrUnauthorized"

/-! ## encoding/hex -/

/-- The table `hextable = "0123456789abcdef"` of `encoding/hex`. -/
def hexDigit (n : Nat) : Byte :=
  if n < 10 then Fin.ofNat (48 + n) else Fin.ofNat (87 + n)

/-- Go `hex.EncodeToString`. -/
def hexEncodeToString : Bytes → Bytes
  | [] => []
  | b :: rest => hexDigit (b.val / 16) :: hexDigit (b.val % 16) :: hexEncodeToString rest

/-- The table `reverseHexTable` of `encoding/hex`: `none` stands for the entry `0xff`. -/
def fromHexChar (c : Byte) : Option Nat :=
  if 48 ≤ c.val ∧ c.val ≤ 57 then some (c.val - 48)
  else if 97 ≤ c.val ∧ c.val ≤ 102 then some (c.val - 87)
  else if 65 ≤ c.val ∧ c.val ≤ 70 then some (c.val - 55)
  else none

/-- Go `hex.DecodeString`; the bytes decoded before an error are dropped, as the caller
drops them. -/
def hexDecodeString : Bytes → Except GoError Bytes
  | [] => .ok []
  | [c] =>
    match fromHexChar c with
    | none => .error (.value "hex.InvalidByteError")
    | some _ => .error (.value "hex.ErrLength")
  | p :: q :: rest =>
    match fromHexChar p, fromHexChar q with
    | none, _ => .error (.value "hex.InvalidByteError")
    | some _, none => .error (.value "hex.InvalidByteError")
    | some a, some b =>
      match hexDecodeString rest with
      | .error e => .error e
      | .ok out => .ok (Fin.ofNat (a * 16 + b) :: out)

/-! ## strconv -/

/-- The digit loop of Go `strconv.ParseUint(s, 10, 64)`, with the value read so far. -/
def parseUintLoop : Bytes → Nat → Except GoError Nat
  | [], n => .ok n
  | c :: cs, n =>
    if 48 ≤ c.val ∧ c.val ≤ 57 then
      if n ≥ 1844674407370955162 then .error (.value "strconv.ErrRange")
      else
        let n1 := n * 10 + (c.val - 48)
        if n1 > 18446744073709551615 then .error (.value "strconv.ErrRange")
        else parseUintLoop cs n1
    else .error (.value "strconv.ErrSyntax")

/-- Go `strconv.ParseUint(s, 10, 64)`. -/
def ParseUint (s : Bytes) : Except GoError Nat :=
  if s = [] then .error (.value "strconv.ErrSyntax") else parseUintLoop s 0

/-- Go `strconv.ParseInt(s, 10, 64)`. A range error of `ParseUint` is reported as the range
error of `ParseInt`, any other error as it is. -/
def ParseInt (s : Bytes) : Except GoError Int :=
  match s with
  | [] => .error (.value "strconv.ErrSyntax")
  | c :: rest =>
    let neg := c.val = 45
    let digits := if c.val = 43 ∨ c.val = 45 then rest else s
    match ParseUint digits with
    | .error e => .error e
    | .ok un =>
      if ¬ neg ∧ un ≥ 9223372036854775808 then .error (.value "strconv.ErrRange")
      else if neg ∧ un > 9223372036854775808 then .error (.value "strconv.ErrRange")
      else .ok (if neg then - (un : Int) else (un : Int))

/-! ## crypto/sha256, crypto/hmac, crypto/subtle -/

namespace sha256

/-- The round constants of SHA-256. -/
def K : List Nat := [
  0x428a2f98, 0x71374491, 0xb5c0fbcf, 0xe9b5dba5, 0x3956c25b, 0x59f111f1, 0x923f82a4, 0xab1c5ed5,
  0xd807aa98, 0x12835b01, 0x243185be, 0x550c7dc3, 0x72be5d74, 0x80deb1fe, 0x9bdc06a7, 0xc19bf174,
  0xe49b69c1, 0xefbe4786, 0x0fc19dc6, 0x240ca1cc, 0x2de92c6f, 0x4a7484aa, 0x5cb0a9dc, 0x76f988da,
  0x983e5152, 0xa831c66d, 0xb00327c8, 0xbf597fc7, 0xc6e00bf3, 0xd5a79147, 0x06ca6351, 0x14292967,
  0x27b70a85, 0x2e1b2138, 0x4d2c6dfc, 0x53380d13, 0x650a7354, 0x766a0abb, 0x81c2c92e, 0x92722c85,
  0xa2bfe8a1, 0xa81a664b, 0xc24b8b70, 0xc76c51a3, 0xd192e819, 0xd6990624, 0xf40e3585, 0x106aa070,
  0x19a4c116, 0x1e376c08, 0x2748774c, 0x34b0bcb5, 0x391c0cb3, 0x4ed8aa4a, 0x5b9cca4f, 0x682e6ff3,
  0x748f82ee, 0x78a5636f, 0x84c87814, 0x8cc70208, 0x90befffa, 0xa4506ceb, 0xbef9a3f7, 0xc67178f2]

/-- Truncation to a 32-bit word. -/
def w32 (x : Nat) : Nat := x % 4294967296

/-- Rotation of a 32-bit word to the right. -/
def rotr (x n : Nat) : Nat := w32 ((x >>> n) ||| (x <<< (32 - n)))

/-- Complement of a 32-bit word. -/
def not32 (x : Nat) : Nat := 4294967295 - x

/-- Message padding: `0x80`, zeros up to 56 modulo 64, then the bit length as 8 big-endian
bytes. -/
def pad (m : Bytes) : Bytes :=
  let n := m.length
  let z := (119 - n % 64) % 64
  let bits := n * 8
  m ++ [(128 : Byte)] ++ List.replicate z (0 : Byte) ++
    (List.range 8).map (fun i => Fin.ofNat ((bits >>> (8 * (7 - i))) % 256))

/-- Four bytes as a big-endian word. -/
def word (a b c d : Byte) : Nat := a.val * 16777216 + b.val * 65536 + c.val * 256 + d.val

/-- A byte string as big-endian words. -/
def words : Bytes → List Nat
  | a :: b :: c :: d :: rest => word a b c d :: words rest
  | _ => []

/-- The message schedule, newest word first: `n` more words after the ones given. -/
def schedule : Nat → List Nat → List Nat
  | 0, w => w
  | n + 1, w =>
    let w2 := w.getD 1 0
    let w7 := w.getD 6 0
    let w15 := w.getD 14 0
    let w16 := w.getD 15 0
    let s0 := rotr w15 7 ^^^ rotr w15 18 ^^^ (w15 >>> 3)
    let s1 := rotr w2 17 ^^^ rotr w2 19 ^^^ (w2 >>> 10)
    schedule n (w32 (s1 + w7 + s0 + w16) :: w)

/-- The eight working variables. -/
structure St where
  a : Nat
  b : Nat
  c : Nat
  d : Nat
  e : Nat
  f : Nat
  g : Nat
  h : Nat

/-- One round of the compression function, on a round constant and a schedule word. -/
def round (s : St) (kw : Nat × Nat) : St :=
  let S1 := rotr s.e 6 ^^^ rotr s.e 11 ^^^ rotr s.e 25
  let ch := (s.e &&& s.f) ^^^ (not32 s.e &&& s.g)
  let t1 := w32 (s.h + S1 + ch + kw.1 + kw.2)
  let S0 := rotr s.a 2 ^^^ rotr s.a 13 ^^^ rotr s.a 22
  let maj := (s.a &&& s.b) ^^^ (s.a &&& s.c) ^^^ (s.b &&& s.c)
  let t2 := w32 (S0 + maj)
  ⟨w32 (t1 + t2), s.a, s.b, s.c, w32 (s.d + t1), s.e, s.f, s.g⟩

/-- The compression function on one block of 16 words. -/
def block (s : St) (blk : List Nat) : St :=
  let w := (schedule 48 blk.reverse).reverse
  let r := (K.zip w).foldl round s
  ⟨w32 (s.a + r.a), w32 (s.b + r.b), w32 (s.c + r.c), w32 (s.d + r.d),
   w32 (s.e + r.e), w32 (s.f + r.f), w32 (s.g + r.g), w32 (s.h + r.h)⟩

/-- The compression function over `n` consecutive blocks. -/
def blocks : Nat → St → List Nat → St
  | 0, s, _ => s
  | n + 1, s, ws => blocks n (block s (ws.take 16)) (ws.drop 16)

/-- A word as four big-endian bytes. -/
def be32 (x : Nat) : Bytes :=
  [Fin.ofNat (x / 16777216), Fin.ofNat (x / 65536), Fin.ofNat (x / 256), Fin.ofNat x]

/-- The SHA-256 digest of a message (`sha256.Sum256`). -/
def sum (m : Bytes) : Bytes :=
  let ws := words (pad m)
  let s := blocks (ws.length / 16) ⟨0x6a09e667, 0xbb67ae85, 0x3c6ef372, 0xa54ff53a,
    0x510e527f, 0x9b05688c, 0x1f83d9ab, 0x5be0cd19⟩ ws
  be32 s.a ++ be32 s.b ++ be32 s.c ++ be32 s.d ++ be32 s.e ++ be32 s.f ++ be32 s.g ++ be32 s.h

end sha256

/-- HMAC-SHA256 of `msg` under `key` (RFC 2104): what `hmac.New(sha256.New, key)` returns from
`Sum(nil)` after `msg` has been written to it. -/
def hmacSHA256 (key msg : Bytes) : Bytes :=
  let k0 := if key.length > 64 then sha256.sum key else key
  let k := k0 ++ List.replicate (64 - k0.length) (0 : Byte)
  let ipad := k.map (fun b => (Fin.ofNat (b.val ^^^ 0x36) : Byte))
  let opad := k.map (fun b => (Fin.ofNat (b.val ^^^ 0x5c) : Byte))
  sha256.sum (opad ++ sha256.sum (ipad ++ msg))

/-- The loop of Go `subtle.ConstantTimeCompare` over the paired bytes: the accumulator
`v |= x[i] ^ y[i]` and the number of iterations made. -/
def compareLoop : List (Byte × Byte) → Nat × Nat → Nat × Nat
  | [], acc => acc
  | (x, y) :: rest, (v, steps) => compareLoop rest (v ||| (x.val ^^^ y.val), steps + 1)

/-- Go `subtle.ConstantTimeCompare`, returning its result (1 for equal contents, otherwise 0)
and the number of loop iterations it made. -/
def ConstantTimeCompare (x y : Bytes) : Nat × Nat :=
  if x.length ≠ y.length then (0, 0)
  else
    let r := compareLoop (x.zip y) (0, 0)
    (if r.1 = 0 then 1 else 0, r.2)

/-- Go `hmac.Equal`, with the number of loop iterations of the comparison. -/
def hmacEqual (mac1 mac2 : Bytes) : Bool × Nat :=
  let r := ConstantTimeCompare mac1 mac2
  (r.1 == 1, r.2)

/-! ## time -/

/-- Wrap-around of a mathematical integer into `int64`. -/
def wrapInt64 (x : Int) : Int := (x + 9223372036854775808) % 18446744073709551616 - 9223372036854775808

/-- The constant `unixToInternal` of package `time`: seconds from year 1 to 1970. -/
def unixToInternal : Int := 62135596800

/-- Go `time.Since(time.Unix(ts, 0))` at wall-clock time `now` (nanoseconds since the Unix
epoch), in nanoseconds. `time.Unix` stores `ts + unixToInternal` in an `int64`; `Time.Sub`
saturates at the least and the greatest `Duration`. -/
def timeSinceUnix (now ts : Int) : Int :=
  let d := now + unixToInternal * 1000000000 - wrapInt64 (ts + unixToInternal) * 1000000000
  if d < -9223372036854775808 then -9223372036854775808
  else if d > 9223372036854775807 then 9223372036854775807
  else d

/-- The helper `abs64` of slack-go: `y := n >> 63; (n ^ y) - y`, an absolute value that leaves
the least `int64` as it is. -/
def abs64 (n : Int) : Int := wrapInt64 (if n < 0 then - n else n)

/-! ## net/url -/

/-- Go `strings.Cut(s, sep)` for a one-byte separator: the text before the first `sep` and the
text after it (all of `s` and nothing when `sep` does not occur). -/
def cutByte (sep : Byte) : Bytes → Bytes × Bytes
  | [] => ([], [])
  | c :: cs => if c = sep then ([], cs) else ((cutByte sep cs).1.cons c, (cutByte sep cs).2)

/-- Go `strings.Split(s, sep)` for a one-byte separator. -/
def splitByte (sep : Byte) : Bytes → List Bytes
  | [] => [[]]
  | c :: cs =>
    if c = sep then [] :: splitByte sep cs
    else
      match splitByte sep cs with
      | [] => [[c]]
      | h :: t => (c :: h) :: t

/-- Go `url.QueryUnescape`: `%XX` is the byte `XX`, `+` is a space; a `%` not followed by two
hex digits is an `EscapeError`. -/
def QueryUnescape : Bytes → Except GoError Bytes
  | [] => .ok []
  | c :: rest =>
    if c.val = 37 then
      match rest with
      | a :: b :: rest2 =>
        match fromHexChar a, fromHexChar b with
        | some x, some y =>
          match QueryUnescape rest2 with
          | .ok out => .ok (Fin.ofNat (x * 16 + y) :: out)
          | .error e => .error e
        | _, _ => .error (.value "url.EscapeError")
      | _ => .error (.value "url.EscapeError")
    else
      match QueryUnescape rest with
      | .ok out => .ok ((if c.val = 43 then (32 : Byte) else c) :: out)
      | .error e => .error e

/-- Go `url.Values`, read only through `Get`: the decoded pairs in order of appearance. -/
abbrev Values := List (Bytes × Bytes)

/-- Go `url.Values.Get`: the first value of the key, or the empty string. -/
def Values.Get : Values → Bytes → Bytes
  | [], _ => []
  | (k, v) :: rest, key => if k = key then v else Values.Get rest key

/-- One turn of the loop of Go `url.parseQuery`, on the text between two `&`. -/
def parseQueryStep (acc : Values × Option GoError) (seg : Bytes) : Values × Option GoError :=
  if (59 : Byte) ∈ seg then (acc.1, some (.value "url: invalid semicolon separator in query"))
  else if seg = [] then acc
  else
    let kv := cutByte 61 seg
    match QueryUnescape kv.1 with
    | .error e1 => (acc.1, if acc.2 = none then some e1 else acc.2)
    | .ok key =>
      match QueryUnescape kv.2 with
      | .error e1 => (acc.1, if acc.2 = none then some e1 else acc.2)
      | .ok value => (acc.1 ++ [(key, value)], acc.2)

/-- Go `url.ParseQuery`: the values that decoded, and the error to report if any. -/
def ParseQuery (query : Bytes) : Values × Option GoError :=
  (splitByte 38 query).foldl parseQueryStep ([], none)

/-! ## net/http -/

/-- Go `http.Header`, read through `Get` with a key in canonical form: the first value of
each key. -/
abbrev Header := List (Bytes × Bytes)

/-- Go `http.Header.Get`, for a key in canonical form: the value of the key, the empty string
when the key is absent. -/
def Header.Get : Header → Bytes → Bytes
  | [], _ => []
  | (k, v) :: rest, key => if k = key then v else Header.Get rest key

/-- Go `http.Header.Set`, for a key in canonical form. -/
def Header.Set (h : Header) (key value : Bytes) : Header := (key, value) :: h

/-- A request body (`io.ReadCloser`): the bytes it still delivers, and the error it reports
after them (`none` for `io.EOF`). -/
structure Body where
  data : Bytes
  err : Option GoError
  deriving DecidableEq, Repr

/-- Go `io.ReadAll`: what was read, the error, and the reader afterwards. -/
def Body.ReadAll (b : Body) : (Bytes × Option GoError) × Body :=
  ((b.data, b.err), ⟨[], b.err⟩)

/-- Go `io.ReadAll(io.LimitReader(b, n))`. -/
def Body.ReadAllLimit (b : Body) (n : Nat) : (Bytes × Option GoError) × Body :=
  if b.data.length < n then ((b.data, b.err), ⟨[], b.err⟩)
  else ((b.data.take n, none), ⟨b.data.drop n, b.err⟩)

/-- Go `io.NopCloser(bytes.NewBuffer(data))`. -/
def Body.ofBytes (data : Bytes) : Body := ⟨data, none⟩

/-- The fields of Go `http.Request` that verification reads or writes. `URL` is not nil, as
for every request the server hands to a handler. `MediaType` is not a field of the Go struct:
it is what the library call `mime.ParseMediaType` returns, media type and error, on the
`Content-Type` header of the request (on `application/octet-stream` when that header is
empty); the call is not modelled, its result is part of the input. -/
structure Request where
  Method : Bytes
  RawQuery : Bytes
  Header : Header
  MediaType : Bytes × Option GoError
  Body : Body
  PostForm : Option Values
  Form : Option Values
  deriving DecidableEq, Repr

/-- The function `parsePostForm` of `net/http`: the form read from the body (nil unless the
media type is `application/x-www-form-urlencoded`), the error, and the request with what is
left of its body. -/
def parsePostForm (r : Request) : (Option Values × Option GoError) × Request :=
  let mt := r.MediaType
  if mt.1 = ascii "application/x-www-form-urlencoded" then
    let rd := r.Body.ReadAllLimit (10485760 + 1)
    let r1 := { r with Body := rd.2 }
    match rd.1.2 with
    | some e => ((none, if mt.2 = none then some e else mt.2), r1)
    | none =>
      if rd.1.1.length > 10485760 then ((none, some (.value "http: POST too large")), r1)
      else
        let q := ParseQuery rd.1.1
        ((some q.1, if mt.2 = none then q.2 else mt.2), r1)
  else ((none, mt.2), r)

/-- Go `http.Request.ParseForm`. -/
def Request.ParseForm (r : Request) : Option GoError × Request :=
  let p : Option GoError × Request :=
    match r.PostForm with
    | some _ => (none, r)
    | none =>
      let pp : (Option Values × Option GoError) × Request :=
        if r.Method = ascii "POST" ∨ r.Method = ascii "PUT" ∨ r.Method = ascii "PATCH" then
          parsePostForm r
        else ((none, none), r)
      (pp.1.2, { pp.2 with PostForm := some (pp.1.1.getD []) })
  match p.2.Form with
  | some _ => p
  | none =>
    let q := ParseQuery p.2.RawQuery
    (if p.1 = none then q.2 else p.1, { p.2 with Form := some (p.2.PostForm.getD [] ++ q.1) })

/-! ## slack-go -/

/-- Go `slack.SlashCommand`. -/
structure SlashCommand where
  Token : Bytes
  TeamID : Bytes
  TeamDomain : Bytes
  EnterpriseID : Bytes
  EnterpriseName : Bytes
  IsEnterpriseInstall : Bool
  ChannelID : Bytes
  ChannelName : Bytes
  UserID : Bytes
  UserName : Bytes
  Command : Bytes
  Text : Bytes
  ResponseURL : Bytes
  TriggerID : Bytes
  APIAppID : Bytes
  deriving DecidableEq, Repr

/-- The zero value `slack.SlashCommand{}`. -/
def SlashCommand.zero : SlashCommand :=
  ⟨[], [], [], [], [], false, [], [], [], [], [], [], [], [], []⟩

/-- Go `slack.SlashCommandParse`: the command read from the posted form, the error of
`ParseForm`, and the request afterwards. -/
def SlashCommandParse (r : Request) : (SlashCommand × Option GoError) × Request :=
  let p := r.ParseForm
  match p.1 with
  | some e => ((SlashCommand.zero, some e), p.2)
  | none =>
    let f : Values := p.2.PostForm.getD []
    (({ Token := Values.Get f (ascii "token")
        TeamID := Values.Get f (ascii "team_id")
        TeamDomain := Values.Get f (ascii "team_domain")
        EnterpriseID := Values.Get f (ascii "enterprise_id")
        EnterpriseName := Values.Get f (ascii "enterprise_name")
        IsEnterpriseInstall := decide (Values.Get f (ascii "is_enterprise_install") = ascii "true")
        ChannelID := Values.Get f (ascii "channel_id")
        ChannelName := Values.Get f (ascii "channel_name")
        UserID := Values.Get f (ascii "user_id")
        UserName := Values.Get f (ascii "user_name")
        Command := Values.Get f (ascii "command")
        Text := Values.Get f (ascii "text")
        ResponseURL := Values.Get f (ascii "response_url")
        TriggerID := Values.Get f (ascii "trigger_id")
        APIAppID := Values.Get f (ascii "api_app_id") }, none), p.2)

/-- The header names `hSignature` and `hTimestamp` of slack-go. -/
def hSignature : Bytes := ascii "X-Slack-Signature"

def hTimestamp : Bytes := ascii "X-Slack-Request-Timestamp"

/-- The sentinels `slack.ErrInvalidConfiguration`, `slack.ErrMissingHeaders` and
`slack.ErrExpiredTimestamp`. -/
def ErrInvalidConfiguration : GoError :=
  .value "slack.ErrInvalidConfiguration: invalid configuration"

def ErrMissingHeaders : GoError := .value "slack.ErrMissingHeaders: missing headers"

def ErrExpiredTimestamp : GoError := .value "slack.ErrExpiredTimestamp: timestamp is too old"

/-- A running `hmac.New(sha256.New, key)`: the key and the bytes written so far. -/
structure HMAC where
  key : Bytes
  written : Bytes
  deriving DecidableEq, Repr

/-- Go `hash.Hash.Write`; it never fails. -/
def HMAC.Write (h : HMAC) (p : Bytes) : HMAC := { h with written := h.written ++ p }

/-- Go `hash.Hash.Sum(nil)`. -/
def HMAC.Sum (h : HMAC) : Bytes := hmacSHA256 h.key h.written

/-- Go `slack.SecretsVerifier`. -/
structure SecretsVerifier where
  signature : Bytes
  hmac : HMAC
  deriving DecidableEq, Repr

/-- The function `unsafeSignatureVerifier` of slack-go. An empty signing secret is refused
with `ErrInvalidConfiguration`. -/
def unsafeSignatureVerifier (header : Header) (secret : Bytes) : Except GoError SecretsVerifier :=
  let signature := Header.Get header hSignature
  let stimestamp := Header.Get header hTimestamp
  if secret = [] then .error ErrInvalidConfiguration
  else if signature = [] ∨ stimestamp = [] then .error ErrMissingHeaders
  else
    match hexDecodeString (TrimPrefix signature (ascii "v0=")) with
    | .error e => .error e
    | .ok bsignature =>
      .ok ⟨bsignature, HMAC.Write ⟨secret, []⟩ (ascii "v0:" ++ stimestamp ++ ascii ":")⟩

/-- Go `slack.NewSecretsVerifier`, at wall-clock time `now`. -/
def NewSecretsVerifier (header : Header) (secret : Bytes) (now : Int) :
    Except GoError SecretsVerifier :=
  let stimestamp := Header.Get header hTimestamp
  match unsafeSignatureVerifier header secret with
  | .error e => .error e
  | .ok sv =>
    match ParseInt stimestamp with
    | .error e => .error e
    | .ok timestamp =>
      if abs64 (timeSinceUnix now timestamp) > 5 * 60000000000 then .error ErrExpiredTimestamp
      else .ok sv

/-- Go `SecretsVerifier.Write`: the verifier afterwards and the error, which is always nil. -/
def SecretsVerifier.Write (v : SecretsVerifier) (body : Bytes) :
    SecretsVerifier × Option GoError :=
  ({ v with hmac := v.hmac.Write body }, none)

/-- The comparison `hmac.Equal(computed, v.signature)` made by `Ensure`: its outcome and the
number of loop iterations it took. -/
def SecretsVerifier.compare (v : SecretsVerifier) : Bool × Nat :=
  hmacEqual v.hmac.Sum v.signature

/-- Go `SecretsVerifier.Ensure`. -/
def SecretsVerifier.Ensure (v : SecretsVerifier) : Option GoError :=
  if v.compare.1 then none else some (.value "slack: computed unexpected signature")

/-! ## verifier.go -/

/-- What a call of `Verifier.Verify` leaves behind: the returned command and error, and the
request, which the call may have changed through its pointer. -/
structure VerifyResult where
  cmd : SlashCommand
  err : Option GoError
  req : Request
  deriving DecidableEq, Repr

/-- The interface `Verifier`: its method `Verify`, run at wall-clock time `now`. -/
abbrev Verifier := Int → Request → VerifyResult

/-- The struct `SlackVerifier`. -/
structure SlackVerifier where
  secret : Bytes
  deriving DecidableEq, Repr

/-- The constructor `NewVerifier`. -/
def NewVerifier (secret : Bytes) : SlackVerifier := ⟨secret⟩

/-- The body of `SlackVerifier.Verify`, with the number of loop iterations made by the
signature comparison inside `verifier.Ensure()` (`none` when it returns before comparing). -/
def SlackVerifier.run (s : SlackVerifier) (now : Int) (req : Request) :
    VerifyResult × Option Nat :=
  let rd := req.Body.ReadAll
  match rd.1.2 with
  | some err =>
    (⟨SlashCommand.zero, some (.context "failed to read body" err), { req with Body := rd.2 }⟩,
      none)
  | none =>
    let bodyBytes := rd.1.1
    let req := { req with Body := Body.ofBytes bodyBytes }
    match NewSecretsVerifier req.Header s.secret now with
    | .error err =>
      (⟨SlashCommand.zero, some (.context "failed to create verifier" err), req⟩, none)
    | .ok verifier =>
      let w := verifier.Write bodyBytes
      match w.2 with
      | some err =>
        (⟨SlashCommand.zero, some (.context "failed to write body to verifier" err), req⟩, none)
      | none =>
        let verifier := w.1
        match verifier.Ensure with
        | some err =>
          (⟨SlashCommand.zero, some (.annotate ErrUnauthorized err), req⟩,
            some verifier.compare.2)
        | none =>
          let p := SlashCommandParse req
          match p.1.2 with
          | some err =>
            (⟨SlashCommand.zero, some (.context "failed to parse slash command" err), p.2⟩,
              some verifier.compare.2)
          | none => (⟨p.1.1, none, p.2⟩, some verifier.compare.2)

/-- The method `SlackVerifier.Verify`. -/
def SlackVerifier.Verify (s : SlackVerifier) : Verifier :=
  fun now req => (s.run now req).1

/-- A value of Go type `any` stored under a context key. -/
inductive Any where
  | nil
  | slashCommand (v : SlashCommand)
  | string (v : Bytes)
  | other (typeName : String)
  deriving DecidableEq, Repr

/-- A `gin.H` that holds strings, as the JSON object it renders to: its members. -/
abbrev H := List (String × String)

/-- The response writer of gin: the status to send, and what was sent so far (`none` while
nothing is written; otherwise the status line that went out and the JSON objects written to
the body). -/
structure ResponseWriter where
  status : Nat
  sent : Option (Nat × List H)
  deriving DecidableEq, Repr

/-- The method `responseWriter.WriteHeader` of gin. -/
def ResponseWriter.WriteHeader (w : ResponseWriter) (code : Nat) : ResponseWriter :=
  if code > 0 ∧ w.status ≠ code then
    if w.sent.isSome then w else { w with status := code }
  else w

/-- The method `responseWriter.WriteHeaderNow` of gin. -/
def ResponseWriter.WriteHeaderNow (w : ResponseWriter) : ResponseWriter :=
  match w.sent with
  | none => { w with sent := some (w.status, []) }
  | some _ => w

/-- The method `responseWriter.Write` of gin, writing the rendering of a JSON object. -/
def ResponseWriter.Write (w : ResponseWriter) (obj : H) : ResponseWriter :=
  let w1 := w.WriteHeaderNow
  match w1.sent with
  | none => w1
  | some p => { w1 with sent := some (p.1, p.2 ++ [obj]) }

/-- The fields of `gin.Context` that the middleware reads or writes. -/
structure Context where
  Request : Request
  Keys : List (String × Any)
  Writer : ResponseWriter
  index : Int
  deriving DecidableEq, Repr

/-- The constant `abortIndex` of gin. -/
def abortIndex : Int := 63

/-- Go `gin.Context.IsAborted`. -/
def Context.IsAborted (c : Context) : Bool := decide (c.index ≥ abortIndex)

/-- Go `gin.Context.Get`. -/
def Context.Get (c : Context) (key : String) : Any × Bool :=
  match c.Keys.lookup key with
  | some v => (v, true)
  | none => (Any.nil, false)

/-- Go `gin.Context.Set`. -/
def Context.Set (c : Context) (key : String) (value : Any) : Context :=
  { c with Keys := (key, value) :: c.Keys }

/-- The function `bodyAllowedForStatus` of gin. -/
def bodyAllowedForStatus (status : Nat) : Bool :=
  !(decide (100 ≤ status ∧ status ≤ 199) || decide (status = 204) || decide (status = 304))

/-- Go `gin.Context.AbortWithStatusJSON(code, obj)`. -/
def Context.AbortWithStatusJSON (c : Context) (code : Nat) (obj : H) : Context :=
  let c1 := { c with index := abortIndex }
  let w := c1.Writer.WriteHeader code
  if bodyAllowedForStatus code then { c1 with Writer := w.Write obj }
  else { c1 with Writer := w.WriteHeaderNow }

/-- A `gin.HandlerFunc`, run at wall-clock time `now`; `next` is what `c.Next()` does, the
rest of the handler chain. -/
abbrev HandlerFunc := Int → (Context → Context) → Context → Context

/-! ## context.go -/

/-- The constant `contextKey`. -/
def contextKey : String := "slack-slash-command"

/-- A logger handed to `WithLogger`; its calls are not modelled. -/
structure Logger where
  name : String
  deriving DecidableEq, Repr

/-- The struct `Options`; the logger `none` is the `noopLogger`. -/
structure Options where
  Logger : Option Logger
  Command : Bytes
  Verifier : Verifier

/-- The type `Option` of middleware.go. -/
abbrev MiddlewareOption := Options → Options

/-- The options that `Middleware` builds before it returns its handler. -/
def Middleware.opts (secret : Bytes) (optFns : List MiddlewareOption) : Options :=
  optFns.foldl (fun opts optFn => optFn opts)
    { Logger := none, Command := [], Verifier := (NewVerifier secret).Verify }

/-- The function `Middleware`. -/
def Middleware (secret : Bytes) (optFns : List MiddlewareOption) : HandlerFunc :=
  let opts := Middleware.opts secret optFns
  fun now next c =>
    let r := opts.Verifier now c.Request
    let c := { c with Request := r.req }
    match r.err with
    | some err =>
      if errorsIs err ErrUnauthorized then
        c.AbortWithStatusJSON 401 [("error", "unauthorized")]
      else
        c.AbortWithStatusJSON 400 [("error", "invalid signature")]
    | none =>
      if opts.Command ≠ [] ∧ opts.Command ≠ r.cmd.Command then
        c.AbortWithStatusJSON 400 [("error", "command mismatch")]
      else
        next (c.Set contextKey (.slashCommand r.cmd))

/-! ## Vocabulary of the properties -/

/-- The helper `sign` of verifier_test.go, the timestamp given as the text of its header:
`"v0=" + hex(HMAC-SHA256(secret, "v0:" + timestamp + ":" + body))`. -/
def sign (secret timestamp body : Bytes) : Bytes :=
  ascii "v0=" ++
    hexEncodeToString (hmacSHA256 secret (ascii "v0:" ++ timestamp ++ ascii ":" ++ body))

/-- The clock reading is one that `time.Now().UnixNano()` can return. -/
abbrev validClock (now : Int) : Prop :=
  -9223372036854775808 ≤ now ∧ now ≤ 9223372036854775807

/-- The timestamp `t`, in seconds, is at most five minutes away from the clock. -/
abbrev withinSkew (now t : Int) : Prop :=
  now - t * 1000000000 ≤ 300000000000 ∧ t * 1000000000 - now ≤ 300000000000

/-- The timestamp `t`, in seconds, is more than five minutes in the past. -/
abbrev olderThanSkew (now t : Int) : Prop :=
  now - t * 1000000000 > 300000000000

/-- The request `req` with a body whose reader fails with `e` once it has delivered the
bytes of the body. -/
def Request.withReadError (req : Request) (e : GoError) : Request :=
  { req with Body := ⟨req.Body.data, some e⟩ }

/-! ## Requests of the test suite -/

/-- The request of verifier_test.go: `httptest.NewRequest(http.MethodPost, "/slack", body)`
with the given headers, none of them a `Content-Type`; `mime.ParseMediaType` then sees
`application/octet-stream`. -/
def testRequest (header : Header) (body : Bytes) : Request :=
  ⟨ascii "POST", [], header, (ascii "application/octet-stream", none), ⟨body, none⟩, none, none⟩

/-- The signature and timestamp headers that the tests set, the signature made with the
secret `signer`. -/
def signedHeader (signer timestamp body : Bytes) : Header :=
  [(hSignature, sign signer timestamp body), (hTimestamp, timestamp)]

/-- A clock reading: 1700000000 seconds after the Unix epoch. -/
def testNow : Int := 1700000000 * 1000000000

/-! ## Library facts -/

theorem lor_eq_zero (a b : Nat) : a ||| b = 0 ↔ a = 0 ∧ b = 0 := by
  constructor
  · intro h
    have key : ∀ i, a.testBit i = false ∧ b.testBit i = false := by
      intro i
      have hi := congrArg (fun n => Nat.testBit n i) h
      simpa [Nat.testBit_or] using hi
    exact ⟨Nat.eq_of_testBit_eq (by intro i; simp [(key i).1]),
      Nat.eq_of_testBit_eq (by intro i; simp [(key i).2])⟩
  · rintro ⟨rfl, rfl⟩
    simp

theorem compareLoop_steps (l : List (Byte × Byte)) (v k : Nat) :
    (compareLoop l (v, k)).2 = k + l.length := by
  induction l generalizing v k with
  | nil => simp [compareLoop]
  | cons p rest ih =>
    obtain ⟨x, y⟩ := p
    simp [compareLoop, ih]
    omega

theorem compareLoop_zero (x y : Bytes) (hlen : x.length = y.length) (v k : Nat) :
    (compareLoop (x.zip y) (v, k)).1 = 0 ↔ v = 0 ∧ x = y := by
  induction x generalizing y v k with
  | nil =>
    cases y with
    | nil => simp [compareLoop]
    | cons b ys => simp at hlen
  | cons a xs ih =>
    cases y with
    | nil => simp at hlen
    | cons b ys =>
      have hl : xs.length = ys.length := by simpa using hlen
      have hz : (a :: xs).zip (b :: ys) = (a, b) :: xs.zip ys := rfl
      rw [hz]
      simp only [compareLoop]
      rw [ih ys hl, lor_eq_zero, Nat.xor_eq_zero]
      constructor
      · rintro ⟨⟨hv, hab⟩, rfl⟩
        exact ⟨hv, by rw [Fin.ext hab]⟩
      · rintro ⟨hv, h⟩
        injection h with h1 h2
        exact ⟨⟨hv, by rw [h1]⟩, h2⟩

theorem hmacEqual_iff (x y : Bytes) : (hmacEqual x y).1 = true ↔ x = y := by
  unfold hmacEqual ConstantTimeCompare
  by_cases hlen : x.length = y.length
  · have h := compareLoop_zero x y hlen 0 0
    rw [if_neg (not_not.mpr hlen)]
    dsimp only
    by_cases hz : (compareLoop (x.zip y) (0, 0)).1 = 0
    · rw [if_pos hz]
      exact ⟨fun _ => (h.mp hz).2, fun _ => rfl⟩
    · rw [if_neg hz]
      exact ⟨fun h0 => absurd h0 (by decide), fun e => absurd (h.mpr ⟨rfl, e⟩) hz⟩
  · rw [if_pos hlen]
    exact ⟨fun h0 => absurd h0 (by decide), fun e => absurd (by rw [e]) hlen⟩

theorem hmacEqual_steps (x y : Bytes) :
    (hmacEqual x y).2 = if x.length = y.length then x.length else 0 := by
  unfold hmacEqual ConstantTimeCompare
  by_cases hlen : x.length = y.length
  · rw [if_neg (not_not.mpr hlen), if_pos hlen]
    simp only [compareLoop_steps]
    simp [hlen]
  · rw [if_pos hlen, if_neg hlen]

theorem hexDigit_roundtrip (b : Byte) :
    fromHexChar (hexDigit (b.val / 16)) = some (b.val / 16) ∧
    fromHexChar (hexDigit (b.val % 16)) = some (b.val % 16) ∧
    (Fin.ofNat (b.val / 16 * 16 + b.val % 16) : Byte) = b := by
  revert b
  decide!

theorem hexDecodeString_hexEncodeToString (d : Bytes) :
    hexDecodeString (hexEncodeToString d) = .ok d := by
  induction d with
  | nil => rfl
  | cons b rest ih =>
    obtain ⟨h1, h2, h3⟩ := hexDigit_roundtrip b
    simp [hexEncodeToString, hexDecodeString, h1, h2, h3, ih]

theorem HasPrefix_append (p s : Bytes) : HasPrefix (p ++ s) p = true := by
  induction p with
  | nil => cases s <;> rfl
  | cons c ps ih => simp [HasPrefix, ih]

theorem TrimPrefix_append (p s : Bytes) : TrimPrefix (p ++ s) p = s := by
  simp [TrimPrefix, HasPrefix_append]

theorem timestamp_fresh (now t : Int) (hnow : validClock now) (hwin : withinSkew now t) :
    ¬ abs64 (timeSinceUnix now t) > 5 * 60000000000 := by
  obtain ⟨h1, h2⟩ := hnow
  obtain ⟨h3, h4⟩ := hwin
  have hw : wrapInt64 (t + unixToInternal) = t + unixToInternal := by
    unfold wrapInt64 unixToInternal
    omega
  unfold abs64 timeSinceUnix
  rw [hw]
  unfold wrapInt64 unixToInternal
  dsimp only
  split_ifs <;> omega

theorem timestamp_stale (now t : Int) (hnow : validClock now)
    (ht : -9223372036854775808 ≤ t) (hold : olderThanSkew now t) :
    abs64 (timeSinceUnix now t) > 5 * 60000000000 := by
  obtain ⟨h1, h2⟩ := hnow
  have hw : wrapInt64 (t + unixToInternal) = t + unixToInternal := by
    unfold wrapInt64 unixToInternal
    unfold olderThanSkew at hold
    omega
  unfold abs64 timeSinceUnix
  rw [hw]
  unfold wrapInt64 unixToInternal
  unfold olderThanSkew at hold
  dsimp only
  split_ifs <;> omega

theorem ParseInt_ok_ne_nil (s : Bytes) (t : Int) (h : ParseInt s = .ok t) : s ≠ [] := by
  intro e
  rw [e] at h
  simp [ParseInt] at h

theorem ParseInt_ok_lower (s : Bytes) (t : Int) (h : ParseInt s = .ok t) :
    -9223372036854775808 ≤ t := by
  cases s with
  | nil => simp [ParseInt] at h
  | cons c rest =>
    simp only [ParseInt] at h
    split at h
    · simp at h
    · rename_i un hun
      split_ifs at h <;> simp at h <;> omega

theorem ascii_v0_ne_nil (x : Bytes) : ascii "v0=" ++ x ≠ [] := by
  simp [ascii]

theorem NewSecretsVerifier_hex (h : Header) (secret ts d : Bytes) (now t : Int)
    (hsecret : secret ≠ [])
    (hsig : Header.Get h hSignature = ascii "v0=" ++ hexEncodeToString d)
    (hts : Header.Get h hTimestamp = ts) (ht : ParseInt ts = .ok t)
    (hnow : validClock now) (hwin : withinSkew now t) :
    NewSecretsVerifier h secret now =
      .ok ⟨d, ⟨secret, ascii "v0:" ++ ts ++ ascii ":"⟩⟩ := by
  have hne := ParseInt_ok_ne_nil ts t ht
  have hfresh := timestamp_fresh now t hnow hwin
  simp only [NewSecretsVerifier, unsafeSignatureVerifier, hsig, hts, TrimPrefix_append,
    hexDecodeString_hexEncodeToString, ht, HMAC.Write, List.nil_append]
  rw [if_neg hsecret, if_neg (by rintro (h1 | h1); exact ascii_v0_ne_nil _ h1; exact hne h1)]
  simp only [if_neg hfresh]

theorem sha256_sum_length (m : Bytes) : (sha256.sum m).length = 32 := by
  simp [sha256.sum, sha256.be32]

theorem hmacSHA256_length (key msg : Bytes) : (hmacSHA256 key msg).length = 32 := by
  unfold hmacSHA256
  exact sha256_sum_length _

theorem run_readable (s : SlackVerifier) (now : Int) (req : Request) (body : Bytes)
    (v : SecretsVerifier) (hbody : req.Body = ⟨body, none⟩)
    (hv : NewSecretsVerifier req.Header s.secret now = .ok v) :
    s.run now req =
      if hmacSHA256 v.hmac.key (v.hmac.written ++ body) = v.signature then
        match (SlashCommandParse { req with Body := ⟨body, none⟩ }).1.2 with
        | some err =>
          (⟨SlashCommand.zero, some (.context "failed to parse slash command" err),
            (SlashCommandParse { req with Body := ⟨body, none⟩ }).2⟩,
            some (if v.signature.length = 32 then 32 else 0))
        | none =>
          (⟨(SlashCommandParse { req with Body := ⟨body, none⟩ }).1.1, none,
            (SlashCommandParse { req with Body := ⟨body, none⟩ }).2⟩,
            some (if v.signature.length = 32 then 32 else 0))
      else
        (⟨SlashCommand.zero,
          some (.annotate ErrUnauthorized (.value "slack: computed unexpected signature")),
          { req with Body := ⟨body, none⟩ }⟩,
          some (if v.signature.length = 32 then 32 else 0)) := by
  have hsteps : (hmacEqual (hmacSHA256 v.hmac.key (v.hmac.written ++ body)) v.signature).2 =
      if v.signature.length = 32 then 32 else 0 := by
    rw [hmacEqual_steps, hmacSHA256_length]
    by_cases h32 : v.signature.length = 32
    · simp [h32]
    · have h32b : ¬ 32 = v.signature.length := fun e => h32 e.symm
      simp [h32, h32b]
  by_cases heq : hmacSHA256 v.hmac.key (v.hmac.written ++ body) = v.signature
  · have hcmp := (hmacEqual_iff _ _).mpr heq
    rw [if_pos heq]
    simp only [SlackVerifier.run, hbody, Body.ReadAll, Body.ofBytes, hv, SecretsVerifier.Write,
      SecretsVerifier.Ensure, SecretsVerifier.compare, HMAC.Write, HMAC.Sum, hcmp, hsteps,
      if_true]
  · have hcmp : (hmacEqual (hmacSHA256 v.hmac.key (v.hmac.written ++ body)) v.signature).1
        = false := by
      cases hc : (hmacEqual (hmacSHA256 v.hmac.key (v.hmac.written ++ body)) v.signature).1
      · rfl
      · exact absurd ((hmacEqual_iff _ _).mp hc) heq
    rw [if_neg heq]
    simp only [SlackVerifier.run, hbody, Body.ReadAll, Body.ofBytes, hv, SecretsVerifier.Write,
      SecretsVerifier.Ensure, SecretsVerifier.compare, HMAC.Write, HMAC.Sum, hcmp, hsteps]
    simp

theorem hexDecodeString_error (s : Bytes) (e : GoError) (h : hexDecodeString s = .error e) :
    e = .value "hex.InvalidByteError" ∨ e = .value "hex.ErrLength" := by
  induction s using hexDecodeString.induct with
  | case1 => simp [hexDecodeString] at h
  | case2 c hc => simp [hexDecodeString, hc] at h; exact Or.inl h.symm
  | case3 c x hc => simp [hexDecodeString, hc] at h; exact Or.inr h.symm
  | case4 p q rest hp => simp [hexDecodeString, hp] at h; exact Or.inl h.symm
  | case5 p q rest a hp hq => simp [hexDecodeString, hp, hq] at h; exact Or.inl h.symm
  | case6 p q rest a b hp hq e1 hrest ih =>
    simp [hexDecodeString, hp, hq, hrest] at h
    exact ih (h ▸ hrest)
  | case7 p q rest a b hp hq out hrest ih => simp [hexDecodeString, hp, hq, hrest] at h

theorem parseUintLoop_error (s : Bytes) (n : Nat) (e : GoError)
    (h : parseUintLoop s n = .error e) :
    e = .value "strconv.ErrSyntax" ∨ e = .value "strconv.ErrRange" := by
  induction s generalizing n with
  | nil => simp [parseUintLoop] at h
  | cons c cs ih =>
    simp only [parseUintLoop] at h
    split_ifs at h
    · exact Or.inr (by injection h with h; exact h.symm)
    · exact Or.inr (by injection h with h; exact h.symm)
    · exact ih _ h
    · exact Or.inl (by injection h with h; exact h.symm)

theorem ParseUint_error (s : Bytes) (e : GoError) (h : ParseUint s = .error e) :
    e = .value "strconv.ErrSyntax" ∨ e = .value "strconv.ErrRange" := by
  unfold ParseUint at h
  split_ifs at h
  · exact Or.inl (by injection h with h; exact h.symm)
  · exact parseUintLoop_error _ _ _ h

theorem ParseInt_error (s : Bytes) (e : GoError) (h : ParseInt s = .error e) :
    e = .value "strconv.ErrSyntax" ∨ e = .value "strconv.ErrRange" := by
  cases s with
  | nil => simp [ParseInt] at h; exact Or.inl h.symm
  | cons c rest =>
    simp only [ParseInt] at h
    split at h
    · rename_i e1 he1
      injection h with h
      subst h
      exact ParseUint_error _ _ he1
    · split_ifs at h
      · exact Or.inr (by injection h with h; exact h.symm)
      · exact Or.inr (by injection h with h; exact h.symm)

theorem NewSecretsVerifier_error (h : Header) (secret : Bytes) (now : Int) (e : GoError)
    (he : NewSecretsVerifier h secret now = .error e) :
    errorsIs e ErrUnauthorized = false := by
  simp only [NewSecretsVerifier, unsafeSignatureVerifier] at he
  split_ifs at he with h0 h1
  · injection he with he; subst he; decide
  · injection he with he; subst he; decide
  · split at he
    · rename_i e1 he1
      split at he1
      · rename_i e2 he2
        injection he with he
        injection he1 with he1
        subst he he1
        rcases hexDecodeString_error _ _ he2 with rfl | rfl <;> decide
      · simp at he1
    · rename_i sv hsv
      split at he
      · rename_i e2 he2
        injection he with he
        subst he
        rcases ParseInt_error _ _ he2 with rfl | rfl <;> decide
      · split_ifs at he
        · injection he with he; subst he; decide

theorem run_read_error (s : SlackVerifier) (now : Int) (req : Request) (e : GoError)
    (hbody : req.Body.err = some e) :
    s.run now req =
      (⟨SlashCommand.zero, some (.context "failed to read body" e),
        { req with Body := ⟨[], some e⟩ }⟩, none) := by
  simp only [SlackVerifier.run, Body.ReadAll, hbody]

theorem run_create_error (s : SlackVerifier) (now : Int) (req : Request) (e : GoError)
    (hbody : req.Body.err = none)
    (hv : NewSecretsVerifier req.Header s.secret now = .error e) :
    s.run now req =
      (⟨SlashCommand.zero, some (.context "failed to create verifier" e),
        { req with Body := ⟨req.Body.data, none⟩ }⟩, none) := by
  simp only [SlackVerifier.run, Body.ReadAll, hbody, Body.ofBytes, hv]

theorem NewSecretsVerifier_missing (h : Header) (secret : Bytes) (now : Int)
    (hsecret : secret ≠ [])
    (hmiss : Header.Get h hSignature = [] ∨ Header.Get h hTimestamp = []) :
    NewSecretsVerifier h secret now = .error ErrMissingHeaders := by
  simp only [NewSecretsVerifier, unsafeSignatureVerifier, if_neg hsecret, if_pos hmiss]

theorem NewSecretsVerifier_missing_error (h : Header) (secret : Bytes) (now : Int)
    (hmiss : Header.Get h hSignature = [] ∨ Header.Get h hTimestamp = []) :
    ∃ e, NewSecretsVerifier h secret now = .error e := by
  by_cases hsecret : secret = []
  · exact ⟨ErrInvalidConfiguration, by
      simp only [NewSecretsVerifier, unsafeSignatureVerifier, if_pos hsecret]⟩
  · exact ⟨ErrMissingHeaders, NewSecretsVerifier_missing h secret now hsecret hmiss⟩

theorem NewSecretsVerifier_stale (h : Header) (secret ts : Bytes) (now t : Int)
    (hts : Header.Get h hTimestamp = ts) (ht : ParseInt ts = .ok t)
    (hnow : validClock now) (hold : olderThanSkew now t) :
    ∃ e, NewSecretsVerifier h secret now = .error e ∧
      (secret ≠ [] → Header.Get h hSignature ≠ [] →
        ∀ d, hexDecodeString (TrimPrefix (Header.Get h hSignature) (ascii "v0=")) = .ok d →
        e = ErrExpiredTimestamp) := by
  have hstale := timestamp_stale now t hnow (ParseInt_ok_lower ts t ht) hold
  have hne := ParseInt_ok_ne_nil ts t ht
  simp only [NewSecretsVerifier, unsafeSignatureVerifier, hts, ht, if_pos hstale]
  by_cases hsecret : secret = []
  · exact ⟨ErrInvalidConfiguration, by simp [hsecret], fun h1 => absurd hsecret h1⟩
  · rw [if_neg hsecret]
    by_cases hs : Header.Get h hSignature = []
    · exact ⟨ErrMissingHeaders, by simp [hs], fun _ h2 => absurd hs h2⟩
    · rw [if_neg (by rintro (h1 | h1); exact hs h1; exact hne h1)]
      cases hdec : hexDecodeString (TrimPrefix (Header.Get h hSignature) (ascii "v0=")) with
      | error e =>
        refine ⟨e, rfl, ?_⟩
        intro _ _ d hd
        cases hd
      | ok d0 => exact ⟨ErrExpiredTimestamp, rfl, fun _ _ _ _ => rfl⟩

theorem errorsIs_context (msg : String) (e : GoError) :
    errorsIs (.context msg e) ErrUnauthorized = errorsIs e ErrUnauthorized := by
  simp [errorsIs, ErrUnauthorized]

/-! ## gin and the middleware -/

theorem abort_response (c : Context) (code : Nat) (obj : H) (hcode : code = 400 ∨ code = 401)
    (hsent : c.Writer.sent = none) :
    (c.AbortWithStatusJSON code obj).Writer.sent = some (code, [obj]) := by
  rcases hcode with rfl | rfl <;>
    by_cases hs : c.Writer.status = 400 <;> by_cases hs' : c.Writer.status = 401 <;>
    simp [Context.AbortWithStatusJSON, bodyAllowedForStatus, ResponseWriter.WriteHeader,
      ResponseWriter.Write, ResponseWriter.WriteHeaderNow, hsent, hs, hs']

theorem abort_frame (c : Context) (code : Nat) (obj : H) :
    (c.AbortWithStatusJSON code obj).IsAborted = true ∧
    (c.AbortWithStatusJSON code obj).Keys = c.Keys ∧
    (c.AbortWithStatusJSON code obj).Request = c.Request := by
  unfold Context.AbortWithStatusJSON
  split_ifs <;> exact ⟨by simp [Context.IsAborted], rfl, rfl⟩

theorem middleware_error (secret : Bytes) (optFns : List MiddlewareOption) (now : Int)
    (next : Context → Context) (c : Context) (e : GoError)
    (he : ((Middleware.opts secret optFns).Verifier now c.Request).err = some e) :
    Middleware secret optFns now next c =
      if errorsIs e ErrUnauthorized then
        Context.AbortWithStatusJSON
          { c with Request := ((Middleware.opts secret optFns).Verifier now c.Request).req }
          401 [("error", "unauthorized")]
      else
        Context.AbortWithStatusJSON
          { c with Request := ((Middleware.opts secret optFns).Verifier now c.Request).req }
          400 [("error", "invalid signature")] := by
  simp only [Middleware, he]

/-- C1, as stated, fails in two ways. With the empty string as the configured secret, a
request in the skew window that was signed with another secret is refused with
`failed to create verifier: invalid configuration`; and when reading the body fails, a request
signed with another secret is refused with `failed to read body: ...`. Neither error is
classified as Unauthorized. -/
theorem verify_wrong_secret_not_unauthorized :
    (ParseInt (ascii "1700000000") = .ok 1700000000 ∧ withinSkew testNow 1700000000 ∧
      sign (ascii "wrong-secret") (ascii "1700000000") (ascii "command=%2Ftest") ≠
        sign [] (ascii "1700000000") (ascii "command=%2Ftest") ∧
      ((NewVerifier []).Verify testNow
        (testRequest (signedHeader (ascii "wrong-secret") (ascii "1700000000")
          (ascii "command=%2Ftest")) (ascii "command=%2Ftest"))).err =
        some (.context "failed to create verifier" ErrInvalidConfiguration) ∧
      errorsIs (.context "failed to create verifier" ErrInvalidConfiguration) ErrUnauthorized
        = false) ∧
    (sign (ascii "wrong-secret") (ascii "1700000000") (ascii "command=%2Ftest") ≠
        sign (ascii "secret") (ascii "1700000000") (ascii "command=%2Ftest") ∧
      ((NewVerifier (ascii "secret")).Verify testNow
        ((testRequest (signedHeader (ascii "wrong-secret") (ascii "1700000000")
            (ascii "command=%2Ftest")) (ascii "command=%2Ftest")).withReadError
          (.value "io.ErrUnexpectedEOF"))).err =
        some (.context "failed to read body" (.value "io.ErrUnexpectedEOF")) ∧
      errorsIs (.context "failed to read body" (.value "io.ErrUnexpectedEOF")) ErrUnauthorized
        = false) := by
  refine ⟨⟨by decide!, by decide, by decide!, by decide!, by decide⟩,
    ⟨by decide!, by decide!, by decide⟩⟩

/-- C1, amended: for a non-empty configured secret, a request whose body reads successfully as
`body`, whose timestamp header lies within the skew window and whose signature header was
computed with a secret `secret'` that gives another signature than the configured `secret`,
makes `Verify` return the zero-value `SlashCommand` and an error `e` with
`errors.Is(e, ErrUnauthorized)`. -/
theorem verify_wrong_secret_unauthorized (secret secret' ts body : Bytes) (now t : Int)
    (req : Request) (hsecret : secret ≠ []) (hbody : req.Body = ⟨body, none⟩)
    (hts : Header.Get req.Header hTimestamp = ts) (ht : ParseInt ts = .ok t)
    (hnow : validClock now) (hwin : withinSkew now t)
    (hsig : Header.Get req.Header hSignature = sign secret' ts body)
    (hne : sign secret' ts body ≠ sign secret ts body) :
    ((NewVerifier secret).Verify now req).cmd = SlashCommand.zero ∧
    ∃ e, ((NewVerifier secret).Verify now req).err = some e ∧
      errorsIs e ErrUnauthorized = true := by
  have hv := NewSecretsVerifier_hex req.Header secret ts _ now t hsecret hsig hts ht hnow hwin
  have hrun := run_readable (NewVerifier secret) now req body _ hbody hv
  have hd : ¬ hmacSHA256 secret (ascii "v0:" ++ ts ++ ascii ":" ++ body) =
      hmacSHA256 secret' (ascii "v0:" ++ ts ++ ascii ":" ++ body) := by
    intro e
    apply hne
    unfold sign
    rw [e]
  simp only [NewVerifier, List.append_assoc] at hrun hd
  rw [if_neg hd] at hrun
  have hV : (NewVerifier secret).Verify now req =
      ⟨SlashCommand.zero,
        some (.annotate ErrUnauthorized (.value "slack: computed unexpected signature")),
        { req with Body := ⟨body, none⟩ }⟩ := by
    simp only [SlackVerifier.Verify, NewVerifier, hrun]
  rw [hV]
  exact ⟨rfl, _, rfl, by decide⟩

/-- C1, amended, at the request of the test `should return ErrUnauthorized on invalid
signature`. -/
theorem verify_wrong_secret_unauthorized_witness :
    sign (ascii "wrong-secret") (ascii "1700000000") (ascii "command=%2Ftest") ≠
      sign (ascii "secret") (ascii "1700000000") (ascii "command=%2Ftest") ∧
    ((NewVerifier (ascii "secret")).Verify testNow
      (testRequest (signedHeader (ascii "wrong-secret") (ascii "1700000000")
        (ascii "command=%2Ftest")) (ascii "command=%2Ftest"))).cmd = SlashCommand.zero ∧
    ∃ e, ((NewVerifier (ascii "secret")).Verify testNow
      (testRequest (signedHeader (ascii "wrong-secret") (ascii "1700000000")
        (ascii "command=%2Ftest")) (ascii "command=%2Ftest"))).err = some e ∧
      errorsIs e ErrUnauthorized = true :=
  ⟨by decide!,
   verify_wrong_secret_unauthorized (ascii "secret") (ascii "wrong-secret") (ascii "1700000000")
    (ascii "command=%2Ftest") testNow 1700000000 _ (by decide) rfl (by decide!) (by decide!)
    (by decide) (by decide) (by decide!) (by decide!)⟩

/-- C3, as stated, fails on the request of the test `should return error on old timestamp`:
the timestamp is 24 hours old and the signature is the correct one, and `Verify` returns
`failed to create verifier: timestamp is too old`, for which `errors.Is(err, ErrUnauthorized)`
is false. -/
theorem verify_stale_timestamp_not_unauthorized :
    ParseInt (ascii "1699913600") = .ok 1699913600 ∧
    olderThanSkew testNow 1699913600 ∧
    ((NewVerifier (ascii "secret")).Verify testNow
      (testRequest (signedHeader (ascii "secret") (ascii "1699913600")
        (ascii "command=%2Ftest")) (ascii "command=%2Ftest"))).err =
      some (.context "failed to create verifier" ErrExpiredTimestamp) ∧
    errorsIs (.context "failed to create verifier" ErrExpiredTimestamp) ErrUnauthorized
      = false := by
  refine ⟨by decide!, by decide, by decide!, by decide⟩

/-- C3, amended: a request whose timestamp header is older than the skew window makes
`Verify` return the zero-value `SlashCommand` and an error, whatever the signature header is:
`failed to read body: e` when reading the body fails with `e`, and otherwise an error
`failed to create verifier: ...` that is not classified as Unauthorized; when the body
reads, the secret is not empty and the signature header is present and is hex after its
prefix `v0=`, the correct signature or not, the error is
`failed to create verifier: timestamp is too old`. -/
theorem verify_stale_timestamp (secret ts : Bytes) (now t : Int) (req : Request)
    (hts : Header.Get req.Header hTimestamp = ts) (ht : ParseInt ts = .ok t)
    (hnow : validClock now) (hold : olderThanSkew now t) :
    ((NewVerifier secret).Verify now req).cmd = SlashCommand.zero ∧
    (∀ e, req.Body.err = some e →
      ((NewVerifier secret).Verify now req).err = some (.context "failed to read body" e)) ∧
    (req.Body.err = none →
      (∃ e, ((NewVerifier secret).Verify now req).err =
          some (.context "failed to create verifier" e) ∧
        errorsIs (.context "failed to create verifier" e) ErrUnauthorized = false) ∧
      (secret ≠ [] → Header.Get req.Header hSignature ≠ [] →
        ∀ d, hexDecodeString (TrimPrefix (Header.Get req.Header hSignature) (ascii "v0="))
            = .ok d →
        ((NewVerifier secret).Verify now req).err =
          some (.context "failed to create verifier" ErrExpiredTimestamp))) := by
  obtain ⟨e, he, hexp⟩ := NewSecretsVerifier_stale req.Header secret ts now t hts ht hnow hold
  cases hb : req.Body.err with
  | some eb =>
    have hrun := run_read_error (NewVerifier secret) now req eb hb
    have hV : (NewVerifier secret).Verify now req = _ := congrArg Prod.fst hrun
    rw [hV]
    refine ⟨rfl, ?_, ?_⟩
    · intro e2 he2
      injection he2 with he2
      rw [he2]
    · intro h
      cases h
  | none =>
    have hrun := run_create_error (NewVerifier secret) now req e hb he
    have hV : (NewVerifier secret).Verify now req = _ := congrArg Prod.fst hrun
    rw [hV]
    refine ⟨rfl, ?_, fun _ => ⟨⟨e, rfl, ?_⟩, ?_⟩⟩
    · intro e2 he2
      cases he2
    · rw [errorsIs_context]
      exact NewSecretsVerifier_error _ _ _ _ he
    · intro hsecret hsig d hd
      rw [hexp hsecret hsig d hd]

/-- C3, amended, at the request of the test `should return error on old timestamp`. -/
theorem verify_stale_timestamp_witness :
    ((NewVerifier (ascii "secret")).Verify testNow
      (testRequest (signedHeader (ascii "secret") (ascii "1699913600")
        (ascii "command=%2Ftest")) (ascii "command=%2Ftest"))).cmd = SlashCommand.zero ∧
    ∃ e, ((NewVerifier (ascii "secret")).Verify testNow
      (testRequest (signedHeader (ascii "secret") (ascii "1699913600")
        (ascii "command=%2Ftest")) (ascii "command=%2Ftest"))).err =
        some (.context "failed to create verifier" e) ∧
      errorsIs (.context "failed to create verifier" e) ErrUnauthorized = false :=
  have h := verify_stale_timestamp (ascii "secret") (ascii "1699913600") testNow 1699913600
    (testRequest (signedHeader (ascii "secret") (ascii "1699913600")
      (ascii "command=%2Ftest")) (ascii "command=%2Ftest"))
    (by decide!) (by decide!) (by decide) (by decide)
  ⟨h.1, (h.2.2 rfl).1⟩

/-- C4, as stated, fails on a request without headers whose body cannot be read: `Verify`
returns `failed to read body: ...` before it looks at the headers, and when the reader fails
with `ErrUnauthorized` that error is classified as Unauthorized and the middleware answers
401 `unauthorized`. -/
theorem verify_missing_header_read_error :
    Header.Get ((testRequest [] []).withReadError ErrUnauthorized).Header hSignature = [] ∧
    ((NewVerifier (ascii "secret")).Verify testNow
      ((testRequest [] []).withReadError ErrUnauthorized)).err =
      some (.context "failed to read body" ErrUnauthorized) ∧
    errorsIs (.context "failed to read body" ErrUnauthorized) ErrUnauthorized = true ∧
    (Middleware (ascii "secret") [] testNow id
      ⟨(testRequest [] []).withReadError ErrUnauthorized, [], ⟨200, none⟩, 0⟩
      ).Writer.sent = some (401, [[("error", "unauthorized")]]) := by
  refine ⟨by decide, by decide!, by decide, by decide!⟩

/-- C4, amended: a request that lacks the signature header or the timestamp header makes
`Verify` return the zero-value `SlashCommand` and an error: `failed to read body: e` when
reading the body fails with `e`, and otherwise an error `failed to create verifier: ...` that
is not classified as Unauthorized, which is `failed to create verifier: missing headers` when
the secret is not empty; in that case the middleware built on this verifier aborts with
`AbortWithStatusJSON(400, invalid signature)`, which on a context where nothing was written
yet sends the status 400 and that body. -/
theorem verify_missing_header (secret : Bytes) (now : Int) (req : Request)
    (hmiss : Header.Get req.Header hSignature = [] ∨ Header.Get req.Header hTimestamp = []) :
    ((NewVerifier secret).Verify now req).cmd = SlashCommand.zero ∧
    (∀ e, req.Body.err = some e →
      ((NewVerifier secret).Verify now req).err = some (.context "failed to read body" e)) ∧
    (req.Body.err = none →
      (∃ e, ((NewVerifier secret).Verify now req).err =
          some (.context "failed to create verifier" e) ∧
        errorsIs (.context "failed to create verifier" e) ErrUnauthorized = false) ∧
      (secret ≠ [] → ((NewVerifier secret).Verify now req).err =
        some (.context "failed to create verifier" ErrMissingHeaders)) ∧
      (∀ (optFns : List MiddlewareOption) (next : Context → Context) (c : Context),
        (Middleware.opts secret optFns).Verifier = (NewVerifier secret).Verify →
        c.Request = req →
        Middleware secret optFns now next c =
          Context.AbortWithStatusJSON
            { c with Request := ((NewVerifier secret).Verify now req).req }
            400 [("error", "invalid signature")] ∧
        (Middleware secret optFns now next c).IsAborted = true ∧
        (c.Writer.sent = none →
          (Middleware secret optFns now next c).Writer.sent =
            some (400, [[("error", "invalid signature")]])))) := by
  cases hb : req.Body.err with
  | some eb =>
    have hrun := run_read_error (NewVerifier secret) now req eb hb
    have hV : (NewVerifier secret).Verify now req = _ := congrArg Prod.fst hrun
    rw [hV]
    refine ⟨rfl, ?_, ?_⟩
    · intro e2 he2
      injection he2 with he2
      rw [he2]
    · intro h
      cases h
  | none =>
    obtain ⟨e, he⟩ := NewSecretsVerifier_missing_error req.Header secret now hmiss
    have hrun := run_create_error (NewVerifier secret) now req e hb he
    have hV : (NewVerifier secret).Verify now req = _ := congrArg Prod.fst hrun
    have hnot : errorsIs (.context "failed to create verifier" e) ErrUnauthorized = false := by
      rw [errorsIs_context]
      exact NewSecretsVerifier_error _ _ _ _ he
    refine ⟨by rw [hV], ?_, fun _ => ⟨⟨e, by rw [hV], hnot⟩, ?_, ?_⟩⟩
    · intro e2 he2
      cases he2
    · intro hsecret
      have he2 := NewSecretsVerifier_missing req.Header secret now hsecret hmiss
      rw [he] at he2
      injection he2 with he2
      rw [hV, he2]
    · intro optFns next c hver hreq
      have herr : ((Middleware.opts secret optFns).Verifier now c.Request).err =
          some (.context "failed to create verifier" e) := by
        rw [hver, hreq, hV]
      have hm := middleware_error secret optFns now next c _ herr
      rw [hnot] at hm
      simp only [Bool.false_eq_true, if_false] at hm
      rw [hver, hreq] at hm
      refine ⟨hm, ?_, ?_⟩
      · rw [hm]
        exact (abort_frame _ 400 _).1
      · intro hsent
        rw [hm]
        exact abort_response _ 400 _ (Or.inl rfl) hsent

/-- C4, amended, at the request of the test `should return error on missing headers`. -/
theorem verify_missing_header_witness :
    ((NewVerifier (ascii "secret")).Verify testNow (testRequest [] [])).err =
      some (.context "failed to create verifier" ErrMissingHeaders) ∧
    (Middleware (ascii "secret") [] testNow id
      ⟨testRequest [] [], [], ⟨200, none⟩, 0⟩).Writer.sent =
        some (400, [[("error", "invalid signature")]]) :=
  have h := verify_missing_header (ascii "secret") testNow (testRequest [] []) (Or.inl rfl)
  ⟨(h.2.2 rfl).2.1 (by decide),
    ((h.2.2 rfl).2.2 [] id ⟨testRequest [] [], [], ⟨200, none⟩, 0⟩ rfl rfl).2.2 rfl⟩

theorem Header_Get_Set_other (h : Header) (key key2 value : Bytes) (hne : key ≠ key2) :
    Header.Get (Header.Set h key value) key2 = Header.Get h key2 := by
  simp [Header.Set, Header.Get, hne]

end Slacktonic
